import Mathlib

/-!
Shallow embedding of the perp-futures core engine (Rust sources under src/)
and verification of its specification claims.

Machine integers: Rust i128 values are modelled as Int; wherever the source
uses checked / saturating arithmetic, the i128 bounds are applied explicitly.
Rust integer division and remainder truncate toward zero, so they are
modelled with Int.tdiv / Int.tmod.  Functions that can panic are modelled
with Option (none = abort); fallible functions return Except String.
-/

namespace Perp

/-- Minimum value of the i128 type, -2 to the power 127, as a literal. -/
def I128_MIN : Int := -170141183460469231731687303715884105728

/-- Maximum value of the i128 type, 2 to the power 127 minus 1, as a literal. -/
def I128_MAX : Int := 170141183460469231731687303715884105727

/-- Predicate: an unbounded integer fits in i128. -/
abbrev fitsI128 (x : Int) : Prop := I128_MIN ≤ x ∧ x ≤ I128_MAX

/-- Clamp an unbounded integer into the i128 range. -/
def clampI128 (x : Int) : Int :=
  if x < I128_MIN then I128_MIN else if I128_MAX < x then I128_MAX else x

/-- Rust i128::saturating_add. -/
def satAdd128 (a b : Int) : Int := clampI128 (a + b)

/-- Rust i128::saturating_sub. -/
def satSub128 (a b : Int) : Int := clampI128 (a - b)

/-- Rust i128::saturating_mul. -/
def satMul128 (a b : Int) : Int := clampI128 (a * b)

/-- Rust i128::checked_mul: none exactly when the true product leaves i128. -/
def checkedMul128 (a b : Int) : Option Int :=
  if fitsI128 (a * b) then some (a * b) else none

/-- Rust i128::checked_sub: none exactly when the true difference leaves i128. -/
def checkedSub128 (a b : Int) : Option Int :=
  if fitsI128 (a - b) then some (a - b) else none

/-- Rust i128::checked_div: none on division by zero or on MIN / -1 overflow. -/
def checkedDiv128 (a b : Int) : Option Int :=
  if b = 0 ∨ (a = I128_MIN ∧ b = -1) then none else some (a.tdiv b)

/-- Side enum from src/types.rs. -/
inductive Side where
  | Long
  | Short
deriving DecidableEq, Repr

/-- OrderType enum from src/types.rs. -/
inductive OrderType where
  | Increase
  | Decrease
  | Liquidation
deriving DecidableEq, Repr

/-!
Scalar types of src/types.rs: Usd and TokenAmount are i128 (modelled as Int),
Timestamp is u64 (modelled as Nat), MarketId / AssetId wrap u32 and AccountId
wraps 32 opaque bytes (all modelled as opaque Nat identifiers).
-/

/-- OraclePrices from src/types.rs; all four fields carry Usd (i128). -/
structure OraclePrices where
  index_price_min : Int
  index_price_max : Int
  collateral_price_min : Int
  collateral_price_max : Int
deriving Repr

/-- PositionKey from src/state/position_store.rs. -/
structure PositionKey where
  account : Nat
  market_id : Nat
  collateral_token : Nat
  side : Side
deriving DecidableEq, Repr

/-- Position from src/state/position_store.rs; sizes and amounts are i128. -/
structure Position where
  key : PositionKey
  size_usd : Int
  size_tokens : Int
  collateral_amount : Int
  pending_impact_tokens : Int
  funding_index : Int
  borrowing_index : Int
  opened_at : Nat
  last_updated_at : Nat
deriving Repr

/-- Order from src/types.rs. -/
structure Order where
  account : Nat
  market_id : Nat
  collateral_token : Nat
  side : Side
  order_type : OrderType
  collateral_delta_tokens : Int
  size_delta_usd : Int
  withdraw_collateral_amount : Int
  target_leverage_x : Int
  created_at : Nat
  valid_from : Nat
  valid_until : Nat
deriving Repr

/-- div_ceil_u from src/math/rounding.rs; q and r of the source are inlined. -/
def div_ceil_u (a b : Int) : Except String Int :=
  if a < 0 ∨ b ≤ 0 then .error "div_ceil_invalid"
  else .ok (if a.tmod b = 0 then a.tdiv b else a.tdiv b + 1)

/-- div_floor_u from src/math/rounding.rs. -/
def div_floor_u (a b : Int) : Except String Int :=
  if a < 0 ∨ b ≤ 0 then .error "div_floor_invalid"
  else .ok (a.tdiv b)

/-- Wrapping i128 negation, as the source's plain negation behaves in a
release build: negating i128::MIN wraps back to i128::MIN (a debug build
aborts on this overflow instead; in the one use below either behavior means
no value is produced, since div_ceil_u then rejects the negative dividend). -/
def wrapNegI128 (x : Int) : Int := if x = I128_MIN then I128_MIN else -x

/-- pnl_usd_to_collateral_tokens from src/math/pnl.rs.  The source computes
the absolute value of a negative PnL with the plain i128 negation
`let abs = -pnl_usd`, which overflows at pnl_usd = i128::MIN; that negation
is modelled with its wrapping semantics (see wrapNegI128). -/
def pnl_usd_to_collateral_tokens (pnl_usd : Int) (prices : OraclePrices) :
    Except String Int :=
  if pnl_usd = 0 then .ok 0
  else if pnl_usd > 0 then
    if prices.collateral_price_max ≤ 0 then .error "invalid_collateral_price_max"
    else div_floor_u pnl_usd prices.collateral_price_max
  else
    if prices.collateral_price_min ≤ 0 then .error "invalid_collateral_price_min"
    else (div_ceil_u (wrapNegI128 pnl_usd) prices.collateral_price_min).map (fun t => -t)

/-- Floor bound: for a non-negative dividend and positive divisor,
truncating division times the divisor does not exceed the dividend. -/
theorem tdiv_mul_le_self (a b : Int) (ha : 0 ≤ a) (hb : 0 < b) :
    a.tdiv b * b ≤ a := by
  rw [Int.tdiv_eq_ediv ha (le_of_lt hb)]
  exact Int.ediv_mul_le a (ne_of_gt hb)

/-- Ceiling bound: the rounded-up quotient times the divisor covers the dividend. -/
theorem ceil_mul_ge_self (a b : Int) (ha : 0 ≤ a) (hb : 0 < b) :
    (if a.tmod b = 0 then a.tdiv b else a.tdiv b + 1) * b ≥ a := by
  rw [Int.tdiv_eq_ediv ha (le_of_lt hb), Int.tmod_eq_emod ha (le_of_lt hb)]
  have hmod := Int.emod_lt_of_pos a hb
  have hdecomp := Int.ediv_add_emod a b
  have hcomm : a / b * b = b * (a / b) := mul_comm _ _
  by_cases hr : a % b = 0
  · simp only [hr, if_pos]
    omega
  · simp only [hr, if_neg, not_false_iff]
    have hplus : (a / b + 1) * b = b * (a / b) + b := by ring
    omega

/--
Counterexample to C1 as stated: at the negative input pnl_usd = i128::MIN
with collateral_price_min = 3 > 0 the conversion does not succeed.  The
source's plain i128 negation of pnl_usd overflows there: a release build
wraps the absolute value back to i128::MIN and div_ceil_u then rejects the
negative dividend with a domain error (a debug build aborts at the negation
instead), so no token amount is ever produced.
-/
theorem pnl_conversion_min_overflow_counterexample :
    I128_MIN < 0 ∧ (0:Int) < 3 ∧
    pnl_usd_to_collateral_tokens I128_MIN ⟨1, 1, 3, 2⟩ = .error "div_ceil_invalid" := by
  exact ⟨by decide, by norm_num, rfl⟩

/--
C1 amended: pnl_usd_to_collateral_tokens rounds in the pool's favor.  For
positive PnL with a positive collateral_price_max it succeeds and pays out
tokens worth at most the PnL; for negative PnL above i128::MIN with a
positive collateral_price_min it succeeds and charges tokens worth at least
the absolute PnL (at pnl_usd = i128::MIN the source's negation of pnl_usd
overflows and the conversion produces no value); and zero PnL converts to
exactly zero tokens under any prices.
-/
theorem pnl_conversion_pool_favoring (pnl_usd : Int) (prices : OraclePrices) :
    (0 < pnl_usd → 0 < prices.collateral_price_max →
      ∃ t, pnl_usd_to_collateral_tokens pnl_usd prices = .ok t ∧
        t * prices.collateral_price_max ≤ pnl_usd) ∧
    (pnl_usd < 0 → I128_MIN < pnl_usd → 0 < prices.collateral_price_min →
      ∃ t, pnl_usd_to_collateral_tokens pnl_usd prices = .ok t ∧
        (-t) * prices.collateral_price_min ≥ -pnl_usd) ∧
    pnl_usd_to_collateral_tokens 0 prices = .ok 0 := by
  refine ⟨?_, ?_, by simp [pnl_usd_to_collateral_tokens]⟩
  · intro hpnl hp
    have h1 : ¬(pnl_usd = 0) := by omega
    have h3 : ¬(prices.collateral_price_max ≤ 0) := by omega
    have h4 : ¬(pnl_usd < 0 ∨ prices.collateral_price_max ≤ 0) := by omega
    refine ⟨pnl_usd.tdiv prices.collateral_price_max, ?_, ?_⟩
    · simp only [pnl_usd_to_collateral_tokens, div_floor_u, if_neg h1, if_pos hpnl,
        if_neg h3, if_neg h4]
    · exact tdiv_mul_le_self pnl_usd prices.collateral_price_max (le_of_lt hpnl) hp
  · intro hpnl hmin hp
    have h1 : ¬(pnl_usd = 0) := by omega
    have h2 : ¬(pnl_usd > 0) := by omega
    have h3 : ¬(prices.collateral_price_min ≤ 0) := by omega
    have h4 : ¬((-pnl_usd) < 0 ∨ prices.collateral_price_min ≤ 0) := by omega
    have hwrap : wrapNegI128 pnl_usd = -pnl_usd := by
      simp only [wrapNegI128]
      rw [if_neg (by omega)]
    refine ⟨-(if (-pnl_usd).tmod prices.collateral_price_min = 0 then
        (-pnl_usd).tdiv prices.collateral_price_min
        else (-pnl_usd).tdiv prices.collateral_price_min + 1), ?_, ?_⟩
    · simp only [pnl_usd_to_collateral_tokens, hwrap, div_ceil_u, if_neg h1, if_neg h2,
        if_neg h3, if_neg h4, Except.map]
    · rw [neg_neg]
      exact ceil_mul_ge_self (-pnl_usd) prices.collateral_price_min (by omega) hp

/-- Witness for the amended C1 at pnl_usd = 7 and -7 with collateral prices
(min 3, max 2). -/
theorem pnl_conversion_pool_favoring_witness :
    ((0:Int) < 7 ∧ (0:Int) < 2 ∧
      ∃ t, pnl_usd_to_collateral_tokens 7 ⟨1, 1, 3, 2⟩ = .ok t ∧ t * (2:Int) ≤ 7) ∧
    ((-7:Int) < 0 ∧ I128_MIN < (-7:Int) ∧ (0:Int) < 3 ∧
      ∃ t, pnl_usd_to_collateral_tokens (-7) ⟨1, 1, 3, 2⟩ = .ok t ∧ (-t) * (3:Int) ≥ 7) := by
  refine ⟨⟨by norm_num, by norm_num, ?_⟩, ⟨by norm_num, by decide, by norm_num, ?_⟩⟩
  · exact (pnl_conversion_pool_favoring 7 ⟨1, 1, 3, 2⟩).1 (by norm_num) (by norm_num)
  · exact (pnl_conversion_pool_favoring (-7) ⟨1, 1, 3, 2⟩).2.1 (by norm_num) (by decide)
      (by norm_num)

/-- PoolBalances from src/state/pool_balances.rs.  The HashMap is modelled as
a total function from (market_id, asset_id) to the stored i128 amount; absent
entries read as 0, matching or_insert(0) and unwrap_or(0) in the source. -/
structure PoolBalances where
  balances : Nat × Nat → Int

/-- get_balance from src/state/pool_balances.rs. -/
def PoolBalances.get_balance (pb : PoolBalances) (market_id asset : Nat) : Int :=
  pb.balances (market_id, asset)

/-- Store a value at one (market, asset) entry; models writing through the
mutable reference produced by entry_mut / entry().or_insert(0). -/
def PoolBalances.setBal (pb : PoolBalances) (market_id asset : Nat) (v : Int) : PoolBalances :=
  ⟨fun k => if k = (market_id, asset) then v else pb.balances k⟩

/-- add_fee_to_pool from src/state/pool_balances.rs. -/
def PoolBalances.add_fee_to_pool (pb : PoolBalances) (market_id asset : Nat) (amount : Int) :
    PoolBalances :=
  if amount = 0 then pb
  else pb.setBal market_id asset (satAdd128 (pb.get_balance market_id asset) amount)

/-- add_liquidity from src/state/pool_balances.rs. -/
def PoolBalances.add_liquidity (pb : PoolBalances) (market_id asset : Nat) (amount : Int) :
    PoolBalances :=
  if amount = 0 then pb
  else pb.setBal market_id asset (satAdd128 (pb.get_balance market_id asset) amount)

/-- add_liquidity_pair from src/state/pool_balances.rs. -/
def PoolBalances.add_liquidity_pair (pb : PoolBalances) (market_id long_asset : Nat)
    (long_amount : Int) (short_asset : Nat) (short_amount : Int) : PoolBalances :=
  let pb1 := if 0 < long_amount then pb.add_liquidity market_id long_asset long_amount else pb
  if 0 < short_amount then pb1.add_liquidity market_id short_asset short_amount else pb1

/-- remove_liquidity from src/state/pool_balances.rs.  The source mutates the
balance in place before returning Ok, so the post state is returned alongside
the result; on the error path nothing was written yet. -/
def PoolBalances.remove_liquidity (pb : PoolBalances) (market_id asset : Nat) (amount : Int) :
    Except String Int × PoolBalances :=
  if amount = 0 then (.ok 0, pb)
  else if pb.get_balance market_id asset < amount then (.error "insufficient_pool_liquidity", pb)
  else (.ok amount, pb.setBal market_id asset (pb.get_balance market_id asset - amount))

/-- remove_liquidity_pair from src/state/pool_balances.rs; a failure of the
second leg keeps the first leg's mutation, as the source does through &mut. -/
def PoolBalances.remove_liquidity_pair (pb : PoolBalances) (market_id long_asset : Nat)
    (long_amount : Int) (short_asset : Nat) (short_amount : Int) :
    Except String (Int × Int) × PoolBalances :=
  match pb.remove_liquidity market_id long_asset long_amount with
  | (.error e, pb1) => (.error e, pb1)
  | (.ok taken_long, pb1) =>
    match pb1.remove_liquidity market_id short_asset short_amount with
    | (.error e, pb2) => (.error e, pb2)
    | (.ok taken_short, pb2) => (.ok (taken_long, taken_short), pb2)

/-- Saturating i128 addition of two non-negatives stays non-negative. -/
theorem satAdd128_nonneg (a b : Int) (ha : 0 ≤ a) (hb : 0 ≤ b) : 0 ≤ satAdd128 a b := by
  simp only [satAdd128, clampI128, I128_MIN, I128_MAX]
  split
  · omega
  · split <;> omega

/-- Point update by a non-negative value preserves pointwise non-negativity. -/
theorem setBal_nonneg (pb : PoolBalances) (hpb : ∀ k, 0 ≤ pb.balances k)
    (m a : Nat) (v : Int) (hv : 0 ≤ v) : ∀ k, 0 ≤ (pb.setBal m a v).balances k := by
  intro k
  simp only [PoolBalances.setBal]
  by_cases hk : k = (m, a)
  · simp [hk, hv]
  · simp [hk, hpb k]

/-- Adding a non-negative amount preserves pointwise non-negativity. -/
theorem add_liquidity_nonneg (pb : PoolBalances) (hpb : ∀ k, 0 ≤ pb.balances k)
    (m a : Nat) (x : Int) (hx : 0 ≤ x) : ∀ k, 0 ≤ (pb.add_liquidity m a x).balances k := by
  simp only [PoolBalances.add_liquidity]
  by_cases h0 : x = 0
  · simpa [h0] using hpb
  · simpa [h0] using
      setBal_nonneg pb hpb m a _ (satAdd128_nonneg _ _ (hpb (m, a)) hx)

/-- Removing at most the stored amount preserves pointwise non-negativity. -/
theorem remove_liquidity_nonneg (pb : PoolBalances) (hpb : ∀ k, 0 ≤ pb.balances k)
    (m a : Nat) (x : Int) :
    ∀ k, 0 ≤ (pb.remove_liquidity m a x).2.balances k := by
  simp only [PoolBalances.remove_liquidity]
  by_cases h0 : x = 0
  · simpa [h0] using hpb
  · by_cases hlt : pb.get_balance m a < x
    · simpa [h0, hlt] using hpb
    · have : 0 ≤ pb.get_balance m a - x := by
        simp only [PoolBalances.get_balance] at hlt ⊢
        omega
      simpa [h0, hlt] using setBal_nonneg pb hpb m a _ this

/--
Counterexample to C9 as stated: starting from the all-zero (hence everywhere
non-negative) pool, add_liquidity with the negative amount -1 drives the
stored balance of (market 0, asset 0) to -1.
-/
theorem pool_negative_amount_counterexample :
    (∀ k, 0 ≤ (PoolBalances.mk fun _ => 0).balances k) ∧
    ((PoolBalances.mk fun _ => 0).add_liquidity 0 0 (-1)).balances (0, 0) = -1 := by
  refine ⟨fun k => le_refl 0, ?_⟩
  show satAdd128 0 (-1) = -1
  decide

/--
C9 amended: for non-negative amounts, every PoolBalances mutation applied to
an everywhere non-negative state yields an everywhere non-negative state, and
remove_liquidity fails, leaving the state unchanged, exactly when removing
the requested amount would take the stored balance below zero.
-/
theorem pool_balances_nonneg_invariant (pb : PoolBalances) (hpb : ∀ k, 0 ≤ pb.balances k)
    (m a la sa : Nat) (x lx sx : Int) (hx : 0 ≤ x) (hlx : 0 ≤ lx) (hsx : 0 ≤ sx) :
    (∀ k, 0 ≤ (pb.add_fee_to_pool m a x).balances k) ∧
    (∀ k, 0 ≤ (pb.add_liquidity m a x).balances k) ∧
    (∀ k, 0 ≤ (pb.add_liquidity_pair m la lx sa sx).balances k) ∧
    (∀ k, 0 ≤ (pb.remove_liquidity m a x).2.balances k) ∧
    (∀ k, 0 ≤ (pb.remove_liquidity_pair m la lx sa sx).2.balances k) ∧
    ((pb.remove_liquidity m a x).1 = .error "insufficient_pool_liquidity" ↔
      pb.get_balance m a - x < 0) ∧
    ((pb.remove_liquidity m a x).1 = .error "insufficient_pool_liquidity" →
      (pb.remove_liquidity m a x).2 = pb) := by
  have hfee : ∀ k, 0 ≤ (pb.add_fee_to_pool m a x).balances k := by
    simp only [PoolBalances.add_fee_to_pool]
    by_cases h0 : x = 0
    · simpa [h0] using hpb
    · simpa [h0] using
        setBal_nonneg pb hpb m a _ (satAdd128_nonneg _ _ (hpb (m, a)) hx)
  have hpair : ∀ k, 0 ≤ (pb.add_liquidity_pair m la lx sa sx).balances k := by
    simp only [PoolBalances.add_liquidity_pair]
    by_cases hl : 0 < lx <;> by_cases hs : 0 < sx <;>
      simp only [hl, hs, if_pos, if_neg, not_false_iff, ite_true, ite_false] <;>
      first
        | exact add_liquidity_nonneg _ (add_liquidity_nonneg pb hpb m la lx hlx) m sa sx hsx
        | exact add_liquidity_nonneg pb hpb m la lx hlx
        | exact add_liquidity_nonneg pb hpb m sa sx hsx
        | exact hpb
  have hrempair : ∀ k, 0 ≤ (pb.remove_liquidity_pair m la lx sa sx).2.balances k := by
    intro k
    have hfst : ∀ j, 0 ≤ (pb.remove_liquidity m la lx).2.balances j :=
      remove_liquidity_nonneg pb hpb m la lx
    simp only [PoolBalances.remove_liquidity_pair]
    split
    · next e1 pb1 heq1 =>
        have h := hfst k
        rw [heq1] at h
        exact h
    · next tl pb1 heq1 =>
        have hpb1 : ∀ j, 0 ≤ pb1.balances j := by
          intro j
          have h := hfst j
          rw [heq1] at h
          exact h
        have hsnd : ∀ j, 0 ≤ (pb1.remove_liquidity m sa sx).2.balances j :=
          remove_liquidity_nonneg pb1 hpb1 m sa sx
        split
        · next e2 pb2 heq2 =>
            have h := hsnd k
            rw [heq2] at h
            exact h
        · next ts pb2 heq2 =>
            have h := hsnd k
            rw [heq2] at h
            exact h
  refine ⟨hfee, add_liquidity_nonneg pb hpb m a x hx, hpair,
    remove_liquidity_nonneg pb hpb m a x, hrempair, ?_, ?_⟩
  · simp only [PoolBalances.remove_liquidity]
    by_cases h0 : x = 0
    · have := hpb (m, a)
      simp only [PoolBalances.get_balance]
      simp [h0]
      omega
    · by_cases hlt : pb.get_balance m a < x <;> simp [h0, hlt]
  · intro hfail
    simp only [PoolBalances.remove_liquidity] at hfail ⊢
    by_cases h0 : x = 0
    · simp [h0] at hfail
    · by_cases hlt : pb.get_balance m a < x
      · simp [h0, hlt]
      · simp [h0, hlt] at hfail

/-- Witness for the amended C9 at the empty pool with amounts 1, 2 and 3. -/
theorem pool_balances_nonneg_invariant_witness :
    (0:Int) ≤ 1 ∧
    (∀ k, 0 ≤ ((PoolBalances.mk fun _ => 0).add_liquidity 0 0 1).balances k) ∧
    (((PoolBalances.mk fun _ => 0).remove_liquidity 0 0 1).1 =
        .error "insufficient_pool_liquidity" ↔
      (PoolBalances.mk fun _ => 0).get_balance 0 0 - 1 < 0) := by
  have h := pool_balances_nonneg_invariant ⟨fun _ => 0⟩ (fun _ => le_refl 0)
    0 0 0 0 1 2 3 (by norm_num) (by norm_num) (by norm_num)
  exact ⟨by norm_num, h.2.1, h.2.2.2.2.2.1⟩

/-- Non-negative clamp, Rust x.max(0) on i128. -/
def clampNonneg (x : Int) : Int := if x < 0 then 0 else x

/-- Clamping is the identity on values that fit in i128. -/
theorem clampI128_eq_of_fits (x : Int) (h : fitsI128 x) : clampI128 x = x := by
  rcases h with ⟨h1, h2⟩
  simp only [clampI128]
  rw [if_neg (by omega), if_neg (by omega)]

/-- Funding block of MarketState, as read and written by src/services/funding.rs. -/
structure FundingState where
  cumulative_index_long : Int
  cumulative_index_short : Int
  last_updated_at : Nat
deriving DecidableEq, Repr

/-- Borrowing block of MarketState, as used by src/services/borrowing.rs. -/
structure BorrowingState where
  cumulative_factor : Int
  last_updated_at : Nat
deriving DecidableEq, Repr

/-- Modelled from the spec: MarketState.  Its defining file is not under src/
(the spec lists MarketState as an external collaborator contract); section 3
of the spec gives its surface: oi_long_usd, oi_short_usd, liquidity_usd, a
funding block and a borrowing block, which is exactly what the funding and
borrowing services in src/ read and write. -/
structure MarketState where
  oi_long_usd : Int
  oi_short_usd : Int
  liquidity_usd : Int
  funding : FundingState
  borrowing : BorrowingState
deriving Repr

/-- FUNDING_INDEX_SCALE from src/services/funding.rs. -/
def FUNDING_INDEX_SCALE : Int := 1000000

/-- update_indices of BasicFundingService from src/services/funding.rs. -/
def update_indices (market : MarketState) (now : Nat) : MarketState :=
  if market.funding.last_updated_at = 0 then
    { market with funding := { market.funding with last_updated_at := now } }
  else if now ≤ market.funding.last_updated_at then market
  else
    let dt : Nat := now - market.funding.last_updated_at
    if dt = 0 then market
    else
      let long_oi := clampNonneg market.oi_long_usd
      let short_oi := clampNonneg market.oi_short_usd
      if long_oi + short_oi = 0 then
        { market with funding := { market.funding with last_updated_at := now } }
      else
        let imbalance := long_oi - short_oi
        let delta_index_fp : Int := 10 * (dt : Int)
        if 0 < imbalance then
          { market with funding :=
            { cumulative_index_long :=
                satAdd128 market.funding.cumulative_index_long delta_index_fp
              cumulative_index_short :=
                satSub128 market.funding.cumulative_index_short delta_index_fp
              last_updated_at := now } }
        else if imbalance < 0 then
          { market with funding :=
            { cumulative_index_long :=
                satSub128 market.funding.cumulative_index_long delta_index_fp
              cumulative_index_short :=
                satAdd128 market.funding.cumulative_index_short delta_index_fp
              last_updated_at := now } }
        else
          { market with funding := { market.funding with last_updated_at := now } }

/-- current_index_for_side from src/services/funding.rs. -/
def current_index_for_side (market : MarketState) (side : Side) : Int :=
  match side with
  | .Long => market.funding.cumulative_index_long
  | .Short => market.funding.cumulative_index_short

/-- settle_position_funding of BasicFundingService from src/services/funding.rs.
Returns the position with its funding_index snapshot advanced, and the
funding fee in USD (positive pays, negative receives). -/
def settle_position_funding (market : MarketState) (pos : Position) : Position × Int :=
  let current_idx := current_index_for_side market pos.key.side
  let delta_idx := current_idx - pos.funding_index
  if delta_idx = 0 ∨ pos.size_usd = 0 then
    ({ pos with funding_index := current_idx }, 0)
  else
    ({ pos with funding_index := current_idx },
      (satMul128 pos.size_usd delta_idx).tdiv FUNDING_INDEX_SCALE)

/-- One market evolution step for the funding conservation claim: the open
interest fields are set externally and update_indices then runs at time now. -/
structure OIStep where
  long : Int
  short : Int
  now : Nat
deriving Repr

/-- Apply one OIStep to a market. -/
def applyOIStep (market : MarketState) (s : OIStep) : MarketState :=
  update_indices { market with oi_long_usd := s.long, oi_short_usd := s.short } s.now

/-- Run a sequence of OISteps. -/
def runOISteps (market : MarketState) : List OIStep → MarketState
  | [] => market
  | s :: rest => runOISteps (applyOIStep market s) rest

/-- Decidable test: running update_indices at time now would saturate one of
the two cumulative indices. -/
def updateSaturates (market : MarketState) (now : Nat) : Bool :=
  if market.funding.last_updated_at = 0 then false
  else if now ≤ market.funding.last_updated_at then false
  else
    let dt : Nat := now - market.funding.last_updated_at
    if dt = 0 then false
    else
      let long_oi := clampNonneg market.oi_long_usd
      let short_oi := clampNonneg market.oi_short_usd
      if long_oi + short_oi = 0 then false
      else
        let imbalance := long_oi - short_oi
        let delta_index_fp : Int := 10 * (dt : Int)
        if 0 < imbalance then
          !(decide (fitsI128 (market.funding.cumulative_index_long + delta_index_fp)) &&
            decide (fitsI128 (market.funding.cumulative_index_short - delta_index_fp)))
        else if imbalance < 0 then
          !(decide (fitsI128 (market.funding.cumulative_index_long - delta_index_fp)) &&
            decide (fitsI128 (market.funding.cumulative_index_short + delta_index_fp)))
        else false

/-- Saturation-freedom of a whole OIStep sequence. -/
def oiStepsNoSat (market : MarketState) : List OIStep → Bool
  | [] => true
  | s :: rest =>
    !updateSaturates { market with oi_long_usd := s.long, oi_short_usd := s.short } s.now &&
      oiStepsNoSat (applyOIStep market s) rest

/-- A saturation-free update_indices call preserves the sum of the two
cumulative funding indices. -/
theorem update_indices_sum (market : MarketState) (now : Nat)
    (h : updateSaturates market now = false) :
    (update_indices market now).funding.cumulative_index_long +
      (update_indices market now).funding.cumulative_index_short =
    market.funding.cumulative_index_long + market.funding.cumulative_index_short := by
  simp only [update_indices, updateSaturates] at h ⊢
  by_cases h0 : market.funding.last_updated_at = 0
  · simp [h0]
  · rw [if_neg h0] at h ⊢
    by_cases h1 : now ≤ market.funding.last_updated_at
    · simp [h1]
    · rw [if_neg h1] at h ⊢
      by_cases h2 : now - market.funding.last_updated_at = 0
      · simp [h2]
      · rw [if_neg h2] at h ⊢
        by_cases h3 : clampNonneg market.oi_long_usd + clampNonneg market.oi_short_usd = 0
        · simp [h3]
        · rw [if_neg h3] at h ⊢
          by_cases h4 : 0 < clampNonneg market.oi_long_usd - clampNonneg market.oi_short_usd
          · rw [if_pos h4] at h ⊢
            simp only [Bool.not_eq_false', Bool.and_eq_true, decide_eq_true_eq] at h
            simp only [satAdd128, satSub128, clampI128_eq_of_fits _ h.1,
              clampI128_eq_of_fits _ h.2]
            ring
          · rw [if_neg h4] at h ⊢
            by_cases h5 : clampNonneg market.oi_long_usd - clampNonneg market.oi_short_usd < 0
            · rw [if_pos h5] at h ⊢
              simp only [Bool.not_eq_false', Bool.and_eq_true, decide_eq_true_eq] at h
              simp only [satAdd128, satSub128, clampI128_eq_of_fits _ h.1,
                clampI128_eq_of_fits _ h.2]
              ring
            · simp [h5]

/-- A saturation-free OIStep sequence preserves the sum of the two cumulative
funding indices. -/
theorem runOISteps_sum (steps : List OIStep) (market : MarketState)
    (h : oiStepsNoSat market steps = true) :
    (runOISteps market steps).funding.cumulative_index_long +
      (runOISteps market steps).funding.cumulative_index_short =
    market.funding.cumulative_index_long + market.funding.cumulative_index_short := by
  induction steps generalizing market with
  | nil => rfl
  | cons s rest ih =>
    simp only [oiStepsNoSat, Bool.and_eq_true, Bool.not_eq_true'] at h
    have h1 := update_indices_sum
      { market with oi_long_usd := s.long, oi_short_usd := s.short } s.now h.1
    simp only [runOISteps]
    rw [ih (applyOIStep market s) h.2]
    exact h1

/-- Saturating i128 multiplication is exact on products that fit. -/
theorem satMul128_eq_of_fits (a b : Int) (h : fitsI128 (a * b)) : satMul128 a b = a * b :=
  clampI128_eq_of_fits (a * b) h

/--
C6: funding conservation for a matched long/short pair.  Two positions of
equal positive size_usd, one Long and one Short, whose funding_index
snapshots equal the market's respective cumulative indices at a common
earlier state, are settled against a market whose indices were advanced only
by update_indices with no saturation (neither in the index updates nor in
the settlement product): the two funding fees sum to exactly zero.
-/
theorem funding_conservation (m0 : MarketState) (steps : List OIStep) (pL pS : Position)
    (hL : pL.key.side = Side.Long) (hS : pS.key.side = Side.Short)
    (hsz : pS.size_usd = pL.size_usd) (hpos : 0 < pL.size_usd)
    (hiL : pL.funding_index = m0.funding.cumulative_index_long)
    (hiS : pS.funding_index = m0.funding.cumulative_index_short)
    (hnosat : oiStepsNoSat m0 steps = true)
    (hfithi : pL.size_usd * ((runOISteps m0 steps).funding.cumulative_index_long -
        m0.funding.cumulative_index_long) ≤ I128_MAX)
    (hfitlo : -I128_MAX ≤ pL.size_usd * ((runOISteps m0 steps).funding.cumulative_index_long -
        m0.funding.cumulative_index_long)) :
    (settle_position_funding (runOISteps m0 steps) pL).2 +
      (settle_position_funding (runOISteps m0 steps) pS).2 = 0 := by
  have hsum := runOISteps_sum steps m0 hnosat
  set m1 := runOISteps m0 steps with hm1
  set dL := m1.funding.cumulative_index_long - m0.funding.cumulative_index_long with hdL
  have hdS : m1.funding.cumulative_index_short - m0.funding.cumulative_index_short = -dL := by
    omega
  have hLfee : (settle_position_funding m1 pL).2 =
      (if dL = 0 ∨ pL.size_usd = 0 then 0
        else (satMul128 pL.size_usd dL).tdiv FUNDING_INDEX_SCALE) := by
    simp only [settle_position_funding, current_index_for_side, hL, hiL]
    rw [← hdL]
    split <;> rfl
  have hSfee : (settle_position_funding m1 pS).2 =
      (if -dL = 0 ∨ pL.size_usd = 0 then 0
        else (satMul128 pL.size_usd (-dL)).tdiv FUNDING_INDEX_SCALE) := by
    simp only [settle_position_funding, current_index_for_side, hS, hiS, hsz]
    rw [hdS]
    split <;> rfl
  rw [hLfee, hSfee]
  by_cases hz : dL = 0
  · simp [hz]
  · have hnz1 : ¬(dL = 0 ∨ pL.size_usd = 0) := by omega
    have hnz2 : ¬(-dL = 0 ∨ pL.size_usd = 0) := by omega
    rw [if_neg hnz1, if_neg hnz2]
    have hfit1 : fitsI128 (pL.size_usd * dL) := by
      constructor <;> simp only [I128_MIN, I128_MAX] at * <;> omega
    have hfit2 : fitsI128 (pL.size_usd * (-dL)) := by
      have hneg : pL.size_usd * (-dL) = -(pL.size_usd * dL) := by ring
      rw [hneg]
      constructor <;> simp only [I128_MIN, I128_MAX] at * <;> omega
    rw [satMul128_eq_of_fits _ _ hfit1, satMul128_eq_of_fits _ _ hfit2]
    have hneg : pL.size_usd * (-dL) = -(pL.size_usd * dL) := by ring
    rw [hneg, Int.neg_tdiv]
    omega

/-- Witness for C6: one long-heavy update step on a fresh market, settling a
matched pair of positions of size 1000000. -/
theorem funding_conservation_witness :
    (settle_position_funding
        (runOISteps ⟨0, 0, 0, ⟨0, 0, 10⟩, ⟨0, 0⟩⟩ [⟨100, 40, 20⟩])
        ⟨⟨0, 0, 0, Side.Long⟩, 1000000, 1, 1, 0, 0, 0, 0, 0⟩).2 +
      (settle_position_funding
        (runOISteps ⟨0, 0, 0, ⟨0, 0, 10⟩, ⟨0, 0⟩⟩ [⟨100, 40, 20⟩])
        ⟨⟨0, 0, 0, Side.Short⟩, 1000000, 1, 1, 0, 0, 0, 0, 0⟩).2 = 0 := by
  exact funding_conservation ⟨0, 0, 0, ⟨0, 0, 10⟩, ⟨0, 0⟩⟩ [⟨100, 40, 20⟩]
    ⟨⟨0, 0, 0, Side.Long⟩, 1000000, 1, 1, 0, 0, 0, 0, 0⟩
    ⟨⟨0, 0, 0, Side.Short⟩, 1000000, 1, 1, 0, 0, 0, 0, 0⟩
    rfl rfl rfl (by norm_num) rfl rfl (by decide) (by decide) (by decide)

/-- Claimables from src/state/claimables.rs.  The two HashMaps are modelled
as total functions from (account, asset) to the stored amount; absent
entries read as 0, matching or_insert(zero) and unwrap_or(zero). -/
structure Claimables where
  funding : Nat × Nat → Int
  fees : Nat × Nat → Int

/-- add_funding from src/state/claimables.rs: zero amounts are a no-op,
otherwise the entry is bumped with a saturating add. -/
def Claimables.add_funding (cl : Claimables) (account asset : Nat) (amount : Int) :
    Claimables :=
  if amount = 0 then cl
  else
    { cl with funding := fun k =>
        if k = (account, asset) then satAdd128 (cl.funding k) amount else cl.funding k }

/-- get_funding from src/state/claimables.rs. -/
def Claimables.get_funding (cl : Claimables) (account asset : Nat) : Int :=
  cl.funding (account, asset)

/-- FundingStep from src/services/funding_step.rs. -/
structure FundingStep where
  cost_usd : Int
deriving DecidableEq, Repr

/-- apply_funding_step from src/services/funding_step.rs.  The position is
settled through &mut before any failure, so the settled position and the
claimables ledger are returned alongside the result. -/
def apply_funding_step (market : MarketState) (pos : Position) (claimables : Claimables)
    (prices : OraclePrices) : Position × Claimables × Except String FundingStep :=
  let step := settle_position_funding market pos
  let fee_usd := step.2
  if fee_usd = 0 then (step.1, claimables, .ok ⟨0⟩)
  else if 0 < fee_usd then (step.1, claimables, .ok ⟨fee_usd⟩)
  else if prices.collateral_price_min ≤ 0 then
    (step.1, claimables, .error "invalid_collateral_price_min_for_funding")
  else
    let reward_usd := -fee_usd
    let reward_tokens := reward_usd.tdiv prices.collateral_price_min
    let claimables1 :=
      if 0 < reward_tokens then
        claimables.add_funding pos.key.account pos.key.collateral_token reward_tokens
      else claimables
    (step.1, claimables1, .ok ⟨0⟩)

/--
Counterexample to C8 as stated: with equal market and position funding
indices the settled fee is zero, and apply_funding_step then succeeds with
cost 0 even though collateral_price_min = 0, so the function does not fail
whenever collateral_price_min is non-positive.
-/
theorem apply_funding_step_no_fail_counterexample :
    (OraclePrices.mk 1 1 0 1).collateral_price_min ≤ 0 ∧
    (apply_funding_step ⟨0, 0, 0, ⟨5, 5, 10⟩, ⟨0, 0⟩⟩
        ⟨⟨0, 0, 0, Side.Long⟩, 100, 1, 1, 0, 5, 0, 0, 0⟩
        ⟨fun _ => 0, fun _ => 0⟩ ⟨1, 1, 0, 1⟩).2.2 = .ok ⟨0⟩ := by
  exact ⟨by norm_num, by rfl⟩

/--
C8 amended: apply_funding_step returns cost_usd equal to the settled fee when
that fee is positive; when the fee is negative and collateral_price_min is
positive it succeeds with cost_usd = 0 and credits floor(-fee /
collateral_price_min) tokens (saturating add) to the claimables ledger under
(account, collateral_token); and it fails exactly when the settled fee is
negative and collateral_price_min ≤ 0.  The ledger hypothesis mirrors the
Rust invariant that stored amounts are genuine i128 values.
-/
theorem apply_funding_step_characterization (market : MarketState) (pos : Position)
    (claimables : Claimables) (prices : OraclePrices)
    (hledger : fitsI128 (claimables.get_funding pos.key.account pos.key.collateral_token)) :
    (0 < (settle_position_funding market pos).2 →
      apply_funding_step market pos claimables prices =
        ((settle_position_funding market pos).1, claimables,
          .ok ⟨(settle_position_funding market pos).2⟩)) ∧
    ((settle_position_funding market pos).2 < 0 → 0 < prices.collateral_price_min →
      ((apply_funding_step market pos claimables prices).2.2 = .ok ⟨0⟩ ∧
        (apply_funding_step market pos claimables prices).2.1.get_funding
            pos.key.account pos.key.collateral_token =
          satAdd128 (claimables.get_funding pos.key.account pos.key.collateral_token)
            ((-(settle_position_funding market pos).2).tdiv prices.collateral_price_min))) ∧
    ((∃ e, (apply_funding_step market pos claimables prices).2.2 = .error e) ↔
      ((settle_position_funding market pos).2 < 0 ∧ prices.collateral_price_min ≤ 0)) := by
  set fee := (settle_position_funding market pos).2 with hfee
  refine ⟨?_, ?_, ?_⟩
  · intro hpos
    simp only [apply_funding_step, ← hfee]
    rw [if_neg (by omega), if_pos hpos]
  · intro hneg hp
    have hz : ¬(fee = 0) := by omega
    have hgt : ¬(0 < fee) := by omega
    have hple : ¬(prices.collateral_price_min ≤ 0) := by omega
    simp only [apply_funding_step, ← hfee, if_neg hz, if_neg hgt, if_neg hple]
    refine ⟨by simp, ?_⟩
    by_cases hrt : 0 < (-fee).tdiv prices.collateral_price_min
    · simp only [if_pos hrt, Claimables.add_funding, Claimables.get_funding]
      rw [if_neg (by omega)]
      simp
    · have hrt0 : (-fee).tdiv prices.collateral_price_min = 0 := by
        have hnn : 0 ≤ (-fee).tdiv prices.collateral_price_min := by
          rw [Int.tdiv_eq_ediv (by omega) (by omega)]
          exact Int.ediv_nonneg (by omega) (by omega)
        omega
      simp only [if_neg hrt, Claimables.get_funding] at *
      rw [hrt0, satAdd128, clampI128_eq_of_fits _ (by simpa using hledger)]
      simp
  · constructor
    · intro he
      rcases he with ⟨e, he⟩
      simp only [apply_funding_step, ← hfee] at he
      by_cases hz : fee = 0
      · rw [if_pos hz] at he
        simp at he
      · rw [if_neg hz] at he
        by_cases hgt : 0 < fee
        · rw [if_pos hgt] at he
          simp at he
        · rw [if_neg hgt] at he
          by_cases hple : prices.collateral_price_min ≤ 0
          · exact ⟨by omega, hple⟩
          · rw [if_neg hple] at he
            by_cases hrt : 0 < (-fee).tdiv prices.collateral_price_min <;>
              simp [hrt] at he
    · rintro ⟨hneg, hple⟩
      refine ⟨"invalid_collateral_price_min_for_funding", ?_⟩
      simp only [apply_funding_step, ← hfee]
      rw [if_neg (by omega), if_neg (by omega), if_pos hple]

/-- Witness for the amended C8: a long position of size 1000000 whose
snapshot sits 100 index units above the market receives funding; with
collateral_price_min = 3 it is credited floor(100 / 3) = 33 tokens. -/
theorem apply_funding_step_characterization_witness :
    ((apply_funding_step ⟨0, 0, 0, ⟨0, 0, 10⟩, ⟨0, 0⟩⟩
        ⟨⟨7, 0, 2, Side.Long⟩, 1000000, 1, 1, 0, 100, 0, 0, 0⟩
        ⟨fun _ => 0, fun _ => 0⟩ ⟨1, 1, 3, 1⟩).2.2 = .ok ⟨0⟩ ∧
      (apply_funding_step ⟨0, 0, 0, ⟨0, 0, 10⟩, ⟨0, 0⟩⟩
        ⟨⟨7, 0, 2, Side.Long⟩, 1000000, 1, 1, 0, 100, 0, 0, 0⟩
        ⟨fun _ => 0, fun _ => 0⟩ ⟨1, 1, 3, 1⟩).2.1.get_funding 7 2 =
        satAdd128 ((Claimables.mk (fun _ => 0) (fun _ => 0)).get_funding 7 2)
          ((-(settle_position_funding ⟨0, 0, 0, ⟨0, 0, 10⟩, ⟨0, 0⟩⟩
              ⟨⟨7, 0, 2, Side.Long⟩, 1000000, 1, 1, 0, 100, 0, 0, 0⟩).2).tdiv 3)) := by
  exact (apply_funding_step_characterization ⟨0, 0, 0, ⟨0, 0, 10⟩, ⟨0, 0⟩⟩
    ⟨⟨7, 0, 2, Side.Long⟩, 1000000, 1, 1, 0, 100, 0, 0, 0⟩
    ⟨fun _ => 0, fun _ => 0⟩ ⟨1, 1, 3, 1⟩ (by decide)).2.1 (by decide) (by decide)

/-- RiskCfg from src/risk/config.rs. -/
structure RiskCfg where
  min_position_size_usd : Int
  min_collateral_usd : Int
  min_collateral_factor_fp : Int
  factor_scale : Int
deriving Repr

/-- will_position_collateral_be_sufficient_pre from src/risk/validation.rs.
Ordinary boolean results are some; none models the panics the source
performs on a non-positive oracle price or on checked-arithmetic failure. -/
def will_position_collateral_be_sufficient_pre (next_size_usd current_collateral_tokens
    withdraw_tokens : Int) (prices : OraclePrices) (risk : RiskCfg) : Option Bool :=
  if current_collateral_tokens < withdraw_tokens then some false
  else if prices.collateral_price_min ≤ 0 then none
  else
    match checkedSub128 current_collateral_tokens withdraw_tokens with
    | none => none
    | some next_collateral_tokens =>
      match checkedMul128 next_collateral_tokens prices.collateral_price_min with
      | none => none
      | some remaining_collateral_usd =>
        if remaining_collateral_usd < risk.min_collateral_usd then some false
        else
          match checkedMul128 next_size_usd risk.min_collateral_factor_fp with
          | none => none
          | some prod =>
            match checkedDiv128 prod risk.factor_scale with
            | none => none
            | some min_for_leverage => some (min_for_leverage ≤ remaining_collateral_usd)

/-- precheck_decrease_and_withdraw from src/risk/validation.rs.  The source's
sequential reassignments are written as a branch tree; some (ok triple) is a
normal return, some (error msg) a domain error, and none a panic propagated
from the sufficiency predicate. -/
def precheck_decrease_and_withdraw (pos : Position) (order : Order) (prices : OraclePrices)
    (risk : RiskCfg) : Option (Except String (Int × Int × Bool)) :=
  if pos.size_usd ≤ 0 ∨ pos.size_tokens ≤ 0 then some (.error "position_empty_or_corrupted")
  else if pos.collateral_amount < 0 then some (.error "position_collateral_negative")
  else if prices.collateral_price_min ≤ 0 then some (.error "invalid_collateral_price_min")
  else if risk.factor_scale ≤ 0 then some (.error "invalid_factor_scale")
  else if order.size_delta_usd ≤ 0 then some (.error "size_delta_usd_must_be_positive")
  else
    let size_delta_usd :=
      if pos.size_usd < order.size_delta_usd then pos.size_usd else order.size_delta_usd
    let is_full_close : Bool := size_delta_usd == pos.size_usd
    if order.withdraw_collateral_amount < 0 then
      some (.error "withdraw_collateral_amount_must_be_non_negative")
    else
      let withdraw_requested := if is_full_close then 0 else order.withdraw_collateral_amount
      let withdraw_tokens :=
        if pos.collateral_amount < withdraw_requested then pos.collateral_amount
        else withdraw_requested
      let next_size_usd := pos.size_usd - size_delta_usd
      if next_size_usd ≠ 0 ∧ next_size_usd < risk.min_position_size_usd then
        some (.ok (pos.size_usd, 0, true))
      else if next_size_usd ≠ 0 then
        match will_position_collateral_be_sufficient_pre next_size_usd pos.collateral_amount
            withdraw_tokens prices risk with
        | none => none
        | some true => some (.ok (size_delta_usd, withdraw_tokens, is_full_close))
        | some false =>
          match will_position_collateral_be_sufficient_pre next_size_usd pos.collateral_amount
              0 prices risk with
          | none => none
          | some true => some (.ok (size_delta_usd, 0, is_full_close))
          | some false => some (.ok (pos.size_usd, 0, true))
      else some (.ok (size_delta_usd, 0, true))

/--
Counterexample to C5 as stated: with withdraw_tokens = 5 exceeding
current_collateral_tokens = 3, will_position_collateral_be_sufficient_pre
returns the ordinary boolean result false; it does not abort.
-/
theorem sufficiency_pre_excess_withdraw_counterexample :
    will_position_collateral_be_sufficient_pre 10 3 5 ⟨1, 1, 1, 1⟩ ⟨10, 5, 1, 1⟩ =
      some false := by
  rfl

/--
C5 amended: whenever will_position_collateral_be_sufficient_pre is reached
with withdraw_tokens > current_collateral_tokens, it returns the ordinary
boolean false to the caller as a user-level rejection; it never aborts on
that condition (panics arise only later, from a non-positive
collateral_price_min or checked-arithmetic failure).
-/
theorem sufficiency_pre_excess_withdraw_returns_false (next_size_usd
    current_collateral_tokens withdraw_tokens : Int) (prices : OraclePrices) (risk : RiskCfg)
    (h : current_collateral_tokens < withdraw_tokens) :
    will_position_collateral_be_sufficient_pre next_size_usd current_collateral_tokens
      withdraw_tokens prices risk = some false := by
  simp only [will_position_collateral_be_sufficient_pre, if_pos h]

/-- Witness for the amended C5 at withdraw 5 against collateral 3. -/
theorem sufficiency_pre_excess_withdraw_returns_false_witness :
    (3:Int) < 5 ∧
    will_position_collateral_be_sufficient_pre 10 3 5 ⟨1, 1, 2, 2⟩ ⟨10, 5, 1, 1⟩ =
      some false := by
  exact ⟨by norm_num,
    sufficiency_pre_excess_withdraw_returns_false 10 3 5 ⟨1, 1, 2, 2⟩ ⟨10, 5, 1, 1⟩
      (by norm_num)⟩

/--
C3: dust escalation.  For a well-formed position, prices and risk config and
a well-formed decrease order whose requested size delta leaves a remainder
strictly between 0 and min_position_size_usd (a positive requested delta
below size_usd leaving size_usd - delta < min; a delta at or above size_usd
is clamped to a full close and leaves no remainder), the precheck returns
exactly (size_delta_usd = pos.size_usd, withdraw_tokens = 0,
is_full_close = true).
-/
theorem precheck_dust_escalates (pos : Position) (order : Order) (prices : OraclePrices)
    (risk : RiskCfg) (hsz : 0 < pos.size_usd) (htk : 0 < pos.size_tokens)
    (hcol : 0 ≤ pos.collateral_amount) (hp : 0 < prices.collateral_price_min)
    (hfs : 0 < risk.factor_scale) (hreq : 0 < order.size_delta_usd)
    (hwd : 0 ≤ order.withdraw_collateral_amount)
    (hlt : order.size_delta_usd < pos.size_usd)
    (hdust : pos.size_usd - order.size_delta_usd < risk.min_position_size_usd) :
    precheck_decrease_and_withdraw pos order prices risk =
      some (.ok (pos.size_usd, 0, true)) := by
  simp only [precheck_decrease_and_withdraw]
  rw [if_neg (show ¬(pos.size_usd ≤ 0 ∨ pos.size_tokens ≤ 0) by omega)]
  rw [if_neg (show ¬(pos.collateral_amount < 0) by omega)]
  rw [if_neg (show ¬(prices.collateral_price_min ≤ 0) by omega)]
  rw [if_neg (show ¬(risk.factor_scale ≤ 0) by omega)]
  rw [if_neg (show ¬(order.size_delta_usd ≤ 0) by omega)]
  rw [if_neg (show ¬(pos.size_usd < order.size_delta_usd) by omega)]
  rw [if_neg (show ¬(order.withdraw_collateral_amount < 0) by omega)]
  rw [if_pos (show pos.size_usd - order.size_delta_usd ≠ 0 ∧
      pos.size_usd - order.size_delta_usd < risk.min_position_size_usd by omega)]

/-- Witness for C3 at the spec's literal inputs: size_usd = 100,
min_position_size_usd = 10, requested 95 yields (100, 0, true). -/
theorem precheck_dust_escalates_witness :
    precheck_decrease_and_withdraw
      ⟨⟨0, 0, 0, Side.Long⟩, 100, 10, 50, 0, 0, 0, 0, 0⟩
      ⟨0, 0, 0, Side.Long, OrderType.Decrease, 0, 95, 0, 1, 0, 0, 0⟩
      ⟨1, 1, 2, 2⟩ ⟨10, 5, 20000000000000000, 1000000000000000000⟩ =
      some (.ok (100, 0, true)) := by
  exact precheck_dust_escalates
    ⟨⟨0, 0, 0, Side.Long⟩, 100, 10, 50, 0, 0, 0, 0, 0⟩
    ⟨0, 0, 0, Side.Long, OrderType.Decrease, 0, 95, 0, 1, 0, 0, 0⟩
    ⟨1, 1, 2, 2⟩ ⟨10, 5, 20000000000000000, 1000000000000000000⟩
    (by norm_num) (by norm_num) (by norm_num) (by norm_num) (by norm_num)
    (by norm_num) (by norm_num) (by norm_num) (by norm_num)

/-- Running the precheck on a full-close request (size delta equal to the
position size, zero withdraw) under valid guards returns the canonical full
close triple. -/
theorem precheck_run_full_close (pos : Position) (order2 : Order) (prices : OraclePrices)
    (risk : RiskCfg) (hsz : 0 < pos.size_usd) (htk : 0 < pos.size_tokens)
    (hcol : 0 ≤ pos.collateral_amount) (hp : 0 < prices.collateral_price_min)
    (hfs : 0 < risk.factor_scale) (h2s : order2.size_delta_usd = pos.size_usd)
    (h2w : order2.withdraw_collateral_amount = 0) :
    precheck_decrease_and_withdraw pos order2 prices risk =
      some (.ok (pos.size_usd, 0, true)) := by
  simp only [precheck_decrease_and_withdraw, h2s, h2w]
  rw [if_neg (show ¬(pos.size_usd ≤ 0 ∨ pos.size_tokens ≤ 0) by omega)]
  rw [if_neg (show ¬(pos.collateral_amount < 0) by omega)]
  rw [if_neg (show ¬(prices.collateral_price_min ≤ 0) by omega)]
  rw [if_neg (show ¬(risk.factor_scale ≤ 0) by omega)]
  rw [if_neg (show ¬(pos.size_usd ≤ 0) by omega)]
  rw [if_neg (show ¬(pos.size_usd < pos.size_usd) by omega)]
  rw [if_neg (show ¬((0:Int) < 0) by omega)]
  simp only [beq_self_eq_true, ite_true]
  rw [if_neg (show ¬(pos.collateral_amount < (0:Int)) by omega)]
  rw [if_neg (show ¬(pos.size_usd - pos.size_usd ≠ 0 ∧
      pos.size_usd - pos.size_usd < risk.min_position_size_usd) by omega)]
  rw [if_neg (show ¬(pos.size_usd - pos.size_usd ≠ 0) by omega)]

/-- Running the precheck on a normalized partial-close request that the
sufficiency predicate already accepts returns it unchanged. -/
theorem precheck_run_partial (pos : Position) (order2 : Order) (prices : OraclePrices)
    (risk : RiskCfg) (s w : Int) (hsz : 0 < pos.size_usd) (htk : 0 < pos.size_tokens)
    (hcol : 0 ≤ pos.collateral_amount) (hp : 0 < prices.collateral_price_min)
    (hfs : 0 < risk.factor_scale) (hspos : 0 < s) (hslt : s < pos.size_usd)
    (hnodust : ¬(pos.size_usd - s < risk.min_position_size_usd))
    (hw0 : 0 ≤ w) (hwle : w ≤ pos.collateral_amount)
    (hwill : will_position_collateral_be_sufficient_pre (pos.size_usd - s)
      pos.collateral_amount w prices risk = some true)
    (h2s : order2.size_delta_usd = s) (h2w : order2.withdraw_collateral_amount = w) :
    precheck_decrease_and_withdraw pos order2 prices risk = some (.ok (s, w, false)) := by
  simp only [precheck_decrease_and_withdraw, h2s, h2w]
  rw [if_neg (show ¬(pos.size_usd ≤ 0 ∨ pos.size_tokens ≤ 0) by omega)]
  rw [if_neg (show ¬(pos.collateral_amount < 0) by omega)]
  rw [if_neg (show ¬(prices.collateral_price_min ≤ 0) by omega)]
  rw [if_neg (show ¬(risk.factor_scale ≤ 0) by omega)]
  rw [if_neg (show ¬(s ≤ 0) by omega)]
  rw [if_neg (show ¬(pos.size_usd < s) by omega)]
  rw [if_neg (show ¬(w < 0) by omega)]
  have hbeq : (s == pos.size_usd) = false := by
    simp only [beq_eq_false_iff_ne, ne_eq]
    omega
  simp only [hbeq, Bool.false_eq_true, if_false]
  rw [if_neg (show ¬(pos.collateral_amount < w) by omega)]
  rw [if_neg (show ¬(pos.size_usd - s ≠ 0 ∧
      pos.size_usd - s < risk.min_position_size_usd) by omega)]
  rw [if_pos (show pos.size_usd - s ≠ 0 by omega)]
  rw [hwill]

/--
C4: precheck idempotence.  Whenever precheck_decrease_and_withdraw succeeds
with (s, w, f), running it again on the same position, prices and risk with
an order requesting the normalized size delta s and withdraw w succeeds and
returns the same triple.
-/
theorem precheck_idempotent (pos : Position) (order order2 : Order) (prices : OraclePrices)
    (risk : RiskCfg) (s w : Int) (f : Bool)
    (h : precheck_decrease_and_withdraw pos order prices risk = some (.ok (s, w, f)))
    (h2s : order2.size_delta_usd = s) (h2w : order2.withdraw_collateral_amount = w) :
    precheck_decrease_and_withdraw pos order2 prices risk = some (.ok (s, w, f)) := by
  simp only [precheck_decrease_and_withdraw] at h
  have hsztk : 0 < pos.size_usd ∧ 0 < pos.size_tokens := by
    by_contra hcon
    rw [if_pos (show pos.size_usd ≤ 0 ∨ pos.size_tokens ≤ 0 by omega)] at h
    simp at h
  obtain ⟨hsz, htk⟩ := hsztk
  rw [if_neg (show ¬(pos.size_usd ≤ 0 ∨ pos.size_tokens ≤ 0) by omega)] at h
  have hcol : 0 ≤ pos.collateral_amount := by
    by_contra hcon
    rw [if_pos (show pos.collateral_amount < 0 by omega)] at h
    simp at h
  rw [if_neg (show ¬(pos.collateral_amount < 0) by omega)] at h
  have hp : 0 < prices.collateral_price_min := by
    by_contra hcon
    rw [if_pos (show prices.collateral_price_min ≤ 0 by omega)] at h
    simp at h
  rw [if_neg (show ¬(prices.collateral_price_min ≤ 0) by omega)] at h
  have hfs : 0 < risk.factor_scale := by
    by_contra hcon
    rw [if_pos (show risk.factor_scale ≤ 0 by omega)] at h
    simp at h
  rw [if_neg (show ¬(risk.factor_scale ≤ 0) by omega)] at h
  have hreq : 0 < order.size_delta_usd := by
    by_contra hcon
    rw [if_pos (show order.size_delta_usd ≤ 0 by omega)] at h
    simp at h
  rw [if_neg (show ¬(order.size_delta_usd ≤ 0) by omega)] at h
  have hwd : 0 ≤ order.withdraw_collateral_amount := by
    by_contra hcon
    rw [if_pos (show order.withdraw_collateral_amount < 0 by omega)] at h
    simp at h
  rw [if_neg (show ¬(order.withdraw_collateral_amount < 0) by omega)] at h
  set sd0 := if pos.size_usd < order.size_delta_usd then pos.size_usd
    else order.size_delta_usd with hsd0
  have hsd0pos : 0 < sd0 := by rw [hsd0]; split <;> omega
  have hsd0le : sd0 ≤ pos.size_usd := by rw [hsd0]; split <;> omega
  set wreq := if (sd0 == pos.size_usd) = true then (0:Int)
    else order.withdraw_collateral_amount with hwreq
  set wd1 := if pos.collateral_amount < wreq then pos.collateral_amount else wreq with hwd1
  have hwreq0 : 0 ≤ wreq := by rw [hwreq]; split <;> omega
  have hwd10 : 0 ≤ wd1 := by rw [hwd1]; split <;> omega
  have hwd1le : wd1 ≤ pos.collateral_amount := by rw [hwd1]; split <;> omega
  by_cases hdust : pos.size_usd - sd0 ≠ 0 ∧ pos.size_usd - sd0 < risk.min_position_size_usd
  · rw [if_pos hdust] at h
    simp only [Option.some.injEq, Except.ok.injEq, Prod.mk.injEq] at h
    obtain ⟨hs, hw, hf⟩ := h
    subst hs
    subst hw
    subst hf
    exact precheck_run_full_close pos order2 prices risk hsz htk hcol hp hfs h2s h2w
  · rw [if_neg hdust] at h
    by_cases hnx : pos.size_usd - sd0 ≠ 0
    · rw [if_pos hnx] at h
      rcases hwill1 : will_position_collateral_be_sufficient_pre (pos.size_usd - sd0)
          pos.collateral_amount wd1 prices risk with _ | b1
      · rw [hwill1] at h
        simp at h
      · cases b1 with
        | true =>
          rw [hwill1] at h
          simp only [Option.some.injEq, Except.ok.injEq, Prod.mk.injEq] at h
          obtain ⟨hs, hw, hf⟩ := h
          subst hs
          subst hw
          subst hf
          have hfc : (sd0 == pos.size_usd) = false := by
            simp only [beq_eq_false_iff_ne, ne_eq]
            omega
          rw [hfc]
          exact precheck_run_partial pos order2 prices risk sd0 wd1 hsz htk hcol hp hfs
            hsd0pos (by omega) (by omega) hwd10 hwd1le hwill1 h2s h2w
        | false =>
          rw [hwill1] at h
          rcases hwill2 : will_position_collateral_be_sufficient_pre (pos.size_usd - sd0)
              pos.collateral_amount 0 prices risk with _ | b2
          · rw [hwill2] at h
            simp at h
          · cases b2 with
            | true =>
              rw [hwill2] at h
              simp only [Option.some.injEq, Except.ok.injEq, Prod.mk.injEq] at h
              obtain ⟨hs, hw, hf⟩ := h
              subst hs
              subst hw
              subst hf
              have hfc : (sd0 == pos.size_usd) = false := by
                simp only [beq_eq_false_iff_ne, ne_eq]
                omega
              rw [hfc]
              exact precheck_run_partial pos order2 prices risk sd0 0 hsz htk hcol hp hfs
                hsd0pos (by omega) (by omega) (by omega) (by omega) hwill2 h2s h2w
            | false =>
              rw [hwill2] at h
              simp only [Option.some.injEq, Except.ok.injEq, Prod.mk.injEq] at h
              obtain ⟨hs, hw, hf⟩ := h
              subst hs
              subst hw
              subst hf
              exact precheck_run_full_close pos order2 prices risk hsz htk hcol hp hfs h2s h2w
    · rw [if_neg hnx] at h
      simp only [Option.some.injEq, Except.ok.injEq, Prod.mk.injEq] at h
      obtain ⟨hs, hw, hf⟩ := h
      subst hs
      subst hw
      subst hf
      have hsdeq : sd0 = pos.size_usd := by omega
      rw [hsdeq]
      rw [hsdeq] at h2s
      exact precheck_run_full_close pos order2 prices risk hsz htk hcol hp hfs h2s h2w

/-- Witness for C4: the dust example (100, 10, 95) normalizes to
(100, 0, true), and feeding (100, 0) back returns (100, 0, true) again. -/
theorem precheck_idempotent_witness :
    precheck_decrease_and_withdraw
      ⟨⟨0, 0, 0, Side.Long⟩, 100, 10, 50, 0, 0, 0, 0, 0⟩
      ⟨0, 0, 0, Side.Long, OrderType.Decrease, 0, 100, 0, 1, 0, 0, 0⟩
      ⟨1, 1, 2, 2⟩ ⟨10, 5, 20000000000000000, 1000000000000000000⟩ =
      some (.ok (100, 0, true)) := by
  exact precheck_idempotent
    ⟨⟨0, 0, 0, Side.Long⟩, 100, 10, 50, 0, 0, 0, 0, 0⟩
    ⟨0, 0, 0, Side.Long, OrderType.Decrease, 0, 95, 0, 1, 0, 0, 0⟩
    ⟨0, 0, 0, Side.Long, OrderType.Decrease, 0, 100, 0, 1, 0, 0, 0⟩
    ⟨1, 1, 2, 2⟩ ⟨10, 5, 20000000000000000, 1000000000000000000⟩
    100 0 true rfl rfl rfl

/-- Maximum value of the primitive_types U256, 2 to the power 256 minus 1. -/
def U256_MAX : Nat := 115792089237316195423570985008687907853269984665640564039457584007913129639935

/-- Clamp a Nat into the U256 range. -/
def clampU256 (x : Nat) : Nat := if U256_MAX < x then U256_MAX else x

/-- Rust U256::saturating_mul on the Nat model of U256. -/
def satMulU256 (a b : Nat) : Nat := clampU256 (a * b)

/-- Value 2 to the power 128, used by the low-128-bit reinterpretation. -/
def TWO_POW_128 : Nat := 340282366920938463463374607431768211456

/-- Value 2 to the power 127. -/
def TWO_POW_127 : Nat := 170141183460469231731687303715884105728

/-- fp_scale from src/services/price_impact.rs: 10 to the power 18. -/
def fp_scale : Nat := 1000000000000000000

/-- ImpactRebalanceConfig from src/services/price_impact.rs; the exponent is
u32 and the factors are U256 fixed-point values. -/
structure ImpactRebalanceConfig where
  impact_exponent : Nat
  same_side_positive_factor_fp : Nat
  same_side_negative_factor_fp : Nat
  crossover_positive_factor_fp : Nat
  crossover_negative_factor_fp : Nat
deriving Repr

/-- default_quadratic from src/services/price_impact.rs. -/
def ImpactRebalanceConfig.default_quadratic : ImpactRebalanceConfig where
  impact_exponent := 2
  same_side_positive_factor_fp := 1000000000000
  same_side_negative_factor_fp := 4000000000000
  crossover_positive_factor_fp := 1000000000000
  crossover_negative_factor_fp := 4000000000000

/-- Modelled from the spec: OpenInterestSnapshot.  The defining file
src/services/open_interest.rs is absent from the tree; the spec's
OpenInterestParams input description and the uses in price_impact.rs give
its two Usd fields. -/
structure OpenInterestSnapshot where
  long_usd : Int
  short_usd : Int
deriving Repr

/-- Modelled from the spec: OpenInterestParams, the current and next
OpenInterestSnapshot pair consumed by the price impact service. -/
structure OpenInterestParams where
  current : OpenInterestSnapshot
  next : OpenInterestSnapshot
deriving Repr

/-- usd_to_u256 from src/services/price_impact.rs: none models the assert
panic on negative open interest. -/
def usd_to_u256 (x : Int) : Option Nat :=
  if x < 0 then none else some x.toNat

/-- abs_diff from src/services/price_impact.rs. -/
def abs_diff (a b : Nat) : Nat := if b ≤ a then a - b else b - a

/-- Loop body of pow_u256 (square-and-multiply with saturating products).
The loop halves exp each iteration; the Nat fuel argument, initialized to
exp itself, strictly dominates the iteration count and makes the recursion
structural so that the kernel can evaluate it. -/
def pow_u256_go : Nat → Nat → Nat → Nat → Nat
  | 0, _, _, result => result
  | fuel + 1, x, exp, result =>
    if exp = 0 then result
    else
      pow_u256_go fuel (satMulU256 x x) (exp / 2)
        (if exp % 2 = 1 then satMulU256 result x else result)

/-- pow_u256 from src/services/price_impact.rs. -/
def pow_u256 (x exp : Nat) : Nat :=
  if exp = 0 then 1 else pow_u256_go (exp + 1) x exp 1

/-- from_fp_to_usd_saturating from src/services/price_impact.rs.  Despite the
name, the source does not saturate: it divides the fixed-point value by the
1e18 scale and reinterprets the low 128 bits of the quotient (big-endian
bytes 16..32) as a two's-complement i128, wrapping out-of-range values. -/
def from_fp_to_usd_saturating (v_fp : Nat) : Int :=
  let q := v_fp / fp_scale
  let low := q % TWO_POW_128
  if low < TWO_POW_127 then (low : Int) else (low : Int) - (TWO_POW_128 : Int)

/-- get_price_impact_usd from src/services/price_impact.rs (also the body of
BasicPriceImpactService::compute_price_impact_usd, which forwards to it).
The sign bookkeeping of the source (sign : i8, final negation) is written as
a branch on the comparison that the source uses to pick the sign.  none
models the usd_to_u256 panic on negative open interest. -/
def get_price_impact_usd (oi : OpenInterestParams) (cfg : ImpactRebalanceConfig) :
    Option (Int × Bool) :=
  match usd_to_u256 oi.current.long_usd, usd_to_u256 oi.current.short_usd,
      usd_to_u256 oi.next.long_usd, usd_to_u256 oi.next.short_usd with
  | some long0, some short0, some long1, some short1 =>
    let initial_long_le_short : Bool := decide (oi.current.long_usd ≤ oi.current.short_usd)
    let next_long_le_short : Bool := decide (oi.next.long_usd ≤ oi.next.short_usd)
    let is_same_side_rebalance := initial_long_le_short == next_long_le_short
    let initial_diff := abs_diff long0 short0
    let next_diff := abs_diff long1 short1
    let balance_was_improved : Bool := decide (next_diff < initial_diff)
    let d0e := pow_u256 initial_diff cfg.impact_exponent
    let d1e := pow_u256 next_diff cfg.impact_exponent
    if is_same_side_rebalance then
      let factor_fp := if balance_was_improved then cfg.same_side_positive_factor_fp
        else cfg.same_side_negative_factor_fp
      if d1e ≤ d0e then
        some (from_fp_to_usd_saturating (satMulU256 (d0e - d1e) factor_fp),
          balance_was_improved)
      else
        some (-(from_fp_to_usd_saturating (satMulU256 (d1e - d0e) factor_fp)),
          balance_was_improved)
    else
      let term0 := satMulU256 d0e cfg.crossover_positive_factor_fp
      let term1 := satMulU256 d1e cfg.crossover_negative_factor_fp
      if term1 ≤ term0 then
        some (from_fp_to_usd_saturating (term0 - term1), balance_was_improved)
      else
        some (-(from_fp_to_usd_saturating (term1 - term0)), balance_was_improved)
  | _, _, _, _ => none

/--
C2 (code bug): sign discipline breaks because the fixed-point reduction
wraps.  With the same-side balance-improving move from open interest (0, 1)
to (0, 0), exponent 1 and the non-negative same-side positive factor
2^127 * 10^18, get_price_impact_usd returns impact -2^127 with
balance_was_improved = true: from_fp_to_usd_saturating reinterprets the low
128 bits of the quotient 2^127 as the negative i128 -2^127 instead of
saturating, although its own name and comment promise saturation and the
spec requires the reduction to saturate and never wrap.
-/
theorem price_impact_sign_breaks_by_wrapping :
    get_price_impact_usd ⟨⟨0, 1⟩, ⟨0, 0⟩⟩
      ⟨1, 170141183460469231731687303715884105728000000000000000000, 0, 0, 0⟩ =
      some (-170141183460469231731687303715884105728, true) := by
  rfl

/-- PricingError from src/services/pricing.rs. -/
inductive PricingError where
  | ZeroSizeDelta
  | PriceImpactLargerThanOrderSize (price_impact_usd : Int) (size_delta_usd : Int)
  | ZeroSizeTokensAfterImpact
deriving DecidableEq, Repr

/-- ExecutionPriceIncreaseResult from src/services/pricing.rs. -/
structure ExecutionPriceIncreaseResult where
  price_impact_usd : Int
  price_impact_amount_tokens : Int
  base_size_delta_tokens : Int
  size_delta_tokens : Int
  execution_price : Int
  balance_was_improved : Bool
deriving DecidableEq, Repr

/-- get_execution_price_for_increase of BasicPricingService from
src/services/pricing.rs, with BasicPriceImpactService (which forwards to
get_price_impact_usd) plugged in as the impact service.  none propagates the
impact service's panic on negative open interest; the source's early Err
returns for a non-positive index price inside the base-token computation are
bridged through the inner option. -/
def get_execution_price_for_increase (oi : OpenInterestParams)
    (impact_cfg : ImpactRebalanceConfig) (side : Side) (size_delta_usd : Int)
    (prices : OraclePrices) : Option (Except PricingError ExecutionPriceIncreaseResult) :=
  if size_delta_usd = 0 then
    some (.ok ⟨0, 0, 0, 0,
      (match side with
        | Side.Long => prices.index_price_max
        | Side.Short => prices.index_price_min), false⟩)
  else
    match get_price_impact_usd oi impact_cfg with
    | none => none
    | some (price_impact_usd, balance_was_improved) =>
      let price_impact_amount_tokens : Int :=
        if 0 < price_impact_usd then
          if 0 < prices.index_price_max then price_impact_usd.tdiv prices.index_price_max
          else 0
        else if price_impact_usd < 0 then
          if 0 < prices.index_price_min then
            -(if (-price_impact_usd).tmod prices.index_price_min = 0 then
                (-price_impact_usd).tdiv prices.index_price_min
              else (-price_impact_usd).tdiv prices.index_price_min + 1)
          else 0
        else 0
      match (match side with
        | Side.Long =>
          if 0 < prices.index_price_max then some (size_delta_usd.tdiv prices.index_price_max)
          else none
        | Side.Short =>
          if 0 < prices.index_price_min then
            some (if size_delta_usd.tmod prices.index_price_min = 0 then
                size_delta_usd.tdiv prices.index_price_min
              else size_delta_usd.tdiv prices.index_price_min + 1)
          else none) with
      | none => some (.error .ZeroSizeDelta)
      | some base_size_delta_tokens =>
        let size_delta_tokens : Int := match side with
          | Side.Long => base_size_delta_tokens + price_impact_amount_tokens
          | Side.Short => base_size_delta_tokens - price_impact_amount_tokens
        if size_delta_tokens < 0 then
          some (.error (.PriceImpactLargerThanOrderSize price_impact_usd size_delta_usd))
        else if size_delta_tokens = 0 then
          some (.error .ZeroSizeTokensAfterImpact)
        else
          some (.ok ⟨price_impact_usd, price_impact_amount_tokens, base_size_delta_tokens,
            size_delta_tokens, size_delta_usd.tdiv size_delta_tokens, balance_was_improved⟩)

/-- Ceiling of a non-negative dividend over a positive divisor, written with
truncating division and remainder, equals minus the euclidean quotient of
the negated dividend. -/
theorem ceil_eq_neg_ediv_neg (a b : Int) (ha : 0 ≤ a) (hb : 0 < b) :
    (if a.tmod b = 0 then a.tdiv b else a.tdiv b + 1) = -((-a) / b) := by
  rw [Int.tdiv_eq_ediv ha (le_of_lt hb), Int.tmod_eq_emod ha (le_of_lt hb)]
  rcases eq_or_ne (a % b) 0 with h | h
  · rw [if_pos h, Int.neg_ediv_of_dvd (Int.dvd_of_emod_eq_zero h), neg_neg]
  · rw [if_neg h]
    have hmodlt := Int.emod_lt_of_pos a hb
    have hmod0 := Int.emod_nonneg a (ne_of_gt hb)
    have hdecomp := Int.ediv_add_emod a b
    have hrepr : -a = (b - a % b) + (-(a / b + 1)) * b := by linear_combination hdecomp
    have hz : (b - a % b) / b = 0 := Int.ediv_eq_zero_of_lt (by omega) (by omega)
    rw [hrepr, Int.add_mul_ediv_right _ _ (ne_of_gt hb), hz]
    ring

/--
C7: base size delta rounding in get_execution_price_for_increase.  With
size_delta_usd > 0 and strictly positive index prices, every returned result
carries base_size_delta_tokens = floor(size_delta_usd / index_price_max) for
Side.Long and ceil(size_delta_usd / index_price_min) for Side.Short (floor
and ceiling written with euclidean division).
-/
theorem execution_price_base_tokens (oi : OpenInterestParams)
    (impact_cfg : ImpactRebalanceConfig) (side : Side) (size_delta_usd : Int)
    (prices : OraclePrices) (r : ExecutionPriceIncreaseResult)
    (hsd : 0 < size_delta_usd) (hpmin : 0 < prices.index_price_min)
    (hpmax : 0 < prices.index_price_max)
    (hres : get_execution_price_for_increase oi impact_cfg side size_delta_usd prices =
      some (.ok r)) :
    r.base_size_delta_tokens =
      (if side = Side.Long then size_delta_usd / prices.index_price_max
        else -((-size_delta_usd) / prices.index_price_min)) := by
  simp only [get_execution_price_for_increase] at hres
  rw [if_neg (show ¬(size_delta_usd = 0) by omega)] at hres
  rcases hpi : get_price_impact_usd oi impact_cfg with _ | ⟨imp, impv⟩
  · rw [hpi] at hres
    simp at hres
  · rw [hpi] at hres
    cases side with
    | Long =>
      simp only [if_pos hpmax, if_pos hpmin] at hres
      rw [if_pos rfl]
      repeat' split at hres
      all_goals
        first
          | (simp only [Option.some.injEq, Except.ok.injEq] at hres
             subst hres
             exact Int.tdiv_eq_ediv (by omega) (by omega))
          | simp at hres
    | Short =>
      simp only [if_pos hpmax, if_pos hpmin] at hres
      rw [if_neg (show ¬(Side.Short = Side.Long) by simp)]
      rw [← ceil_eq_neg_ediv_neg size_delta_usd prices.index_price_min (by omega) hpmin]
      repeat' split at hres
      all_goals
        first
          | (simp only [Option.some.injEq, Except.ok.injEq] at hres
             subst hres
             split
             all_goals first | rfl | contradiction)
          | simp at hres

/-- Witness for C7 at the spec's literal short-rounding scenario: side Short,
size_delta_usd = 10001, prices (min 1000, max 1050), flat open interest of
100000 on both sides, quadratic default config; the call succeeds and
base_size_delta_tokens = ceil(10001 / 1000) = 11. -/
theorem execution_price_base_tokens_witness :
    get_execution_price_for_increase ⟨⟨100000, 100000⟩, ⟨100000, 100000⟩⟩
        ImpactRebalanceConfig.default_quadratic Side.Short 10001 ⟨1000, 1050, 1000, 1050⟩ =
      some (.ok ⟨0, 0, 11, 11, 909, false⟩) ∧
    (11 : Int) = -((-10001 : Int) / 1000) := by
  refine ⟨rfl, ?_⟩
  have h := execution_price_base_tokens ⟨⟨100000, 100000⟩, ⟨100000, 100000⟩⟩
    ImpactRebalanceConfig.default_quadratic Side.Short 10001 ⟨1000, 1050, 1000, 1050⟩
    ⟨0, 0, 11, 11, 909, false⟩ (by norm_num) (by norm_num) (by norm_num) rfl
  exact h

end Perp
